import Mathlib

/-!
Verification of the model-fitting contract of the lmfit-py tutorial material.

The repository ships a single tutorial notebook (`examples/lmfit-model.ipynb`)
that exercises a curve-fitting API (`Model`, `Parameter`, `Model.fit`) whose
implementation is not part of the sources.  Following the specification, the
Model-Parameter binding layer is embedded here as executable Lean definitions:
parameters and parameter sets, signature-derived defaults, the merge/override
resolution, data alignment, missing-data policies, and the delegation to an
external least-squares minimizer treated as a black box.
-/

namespace Lmfit

/-- Modelled from the spec: a single observation cell of a data array.
`num q` is an ordinary numeric value, `nan` is the floating-point
not-a-number sentinel conventionally marking a missing observation, and
`null` is a pandas-style non-numeric null (absent from purely numeric
arrays).  Real numbers are embedded as rationals. -/
inductive Cell where
  | num (q : ℚ)
  | nan
  | null
deriving DecidableEq, Repr

/-- Subtraction on cells: numeric minus numeric is numeric, anything
involving a missing marker propagates `nan`. -/
def Cell.sub : Cell → Cell → Cell
  | .num a, .num b => .num (a - b)
  | _, _ => .nan

/-- Scaling a cell by a rational weight; missing markers propagate. -/
def Cell.smul (w : ℚ) : Cell → Cell
  | .num a => .num (w * a)
  | _ => .nan

/-- Modelled from the spec: `numpy.isnan` as the missing-value predicate —
only the not-a-number sentinel is missing. -/
def numpyIsnan : Cell → Bool
  | .nan => true
  | _ => false

/-- Modelled from the spec: `pandas.isnull` as the missing-value predicate —
both the not-a-number sentinel and a pandas null are missing. -/
def pandasIsnull : Cell → Bool
  | .nan => true
  | .null => true
  | _ => false

/-- Modelled from the spec: the default missing-value predicate relies on
`pandas.isnull` when pandas is importable and silently falls back to
`numpy.isnan` otherwise. -/
def defaultMissing (pandasAvailable : Bool) : Cell → Bool :=
  if pandasAvailable then pandasIsnull else numpyIsnan

/-- Modelled from the spec: a named fittable scalar.  `value` is the
current/initial value (`none` when not yet supplied), `min`/`max` are the
bounds (`none` meaning unbounded), `vary = false` means held fixed during
the solve. -/
structure Parameter where
  value : Option ℚ := none
  min : Option ℚ := none
  max : Option ℚ := none
  vary : Bool := true
deriving DecidableEq, Repr

/-- Modelled from the spec: an ordered mapping from parameter name to
`Parameter`; insertion order is declaration order, names are unique. -/
abbrev ParameterSet := List (String × Parameter)

/-- Modelled from the spec: a per-call keyword override is either a bare
scalar (replacing only the value) or a full `Parameter` specification
(replacing the whole entry). -/
inductive Override where
  | scalar (q : ℚ)
  | full (p : Parameter)
deriving DecidableEq, Repr

/-- Modelled from the spec: the missing-data policy selected at Model
construction time. -/
inductive NanPolicy where
  | raise
  | omit
  | propagate
deriving DecidableEq, Repr

/-- Modelled from the spec: observed data is either a plain positional
array or an indexed (pandas-Series-like) array carrying its own positional
index labels, one label per cell. -/
inductive DataArr where
  | plain (xs : List Cell)
  | indexed (idx : List Nat) (xs : List Cell)
deriving DecidableEq, Repr

/-- The raw cells of a data array, ignoring any index. -/
def DataArr.cells : DataArr → List Cell
  | .plain xs => xs
  | .indexed _ xs => xs

/-- The type of the user-supplied model callable: given a valuation of the
fit parameters and the bound independent-variable arrays, produce the
predicted values. -/
abbrev EvalFn := (String → ℚ) → (String → List Cell) → List Cell

/-- Modelled from the spec: the external least-squares minimizer, a black
box consuming a residual function, an initial vector of varying-parameter
values and per-parameter bounds, returning converged values and a success
indicator. -/
abbrev Minimizer :=
  (List ℚ → List Cell) → List ℚ → List (Option ℚ × Option ℚ) → List ℚ × Bool

/-- Modelled from the spec: a `Model` binds the callable (its introspected
signature `args` — ordered argument names with optional declared defaults —
and its evaluation function), the declared independent-variable names, the
missing-data policy and the pluggable missing-value predicate. -/
structure Model where
  args : List (String × Option ℚ)
  independentVars : List String
  nanPolicy : NanPolicy := .raise
  missing : Cell → Bool := defaultMissing true
  eval : EvalFn

/-- Modelled from the spec: errors a fit call can abort with. -/
inductive FitError where
  | missingParameter (name : String)
  | shapeMismatch
  | missingData
deriving DecidableEq, Repr

/-- Modelled from the spec: an immutable snapshot of the resolved
parameters, success flag, residual array, collected non-fatal warnings and
references to the data/independent variables used. -/
structure FitResult where
  params : ParameterSet
  success : Bool
  residual : List Cell
  warnings : List String
  dataUsed : List Cell
  ivarsUsed : List (String × List Cell)
deriving DecidableEq, Repr

/-- The ordered fit-parameter names of a model: the callable's arguments
that are not independent variables. -/
def fitParamNames (m : Model) : List String :=
  (m.args.map (fun a => a.1)).filter (fun n => decide (n ∉ m.independentVars))

/-- Modelled from the spec: `make_params` builds a ParameterSet from the
introspected signature; arguments with declared defaults seed default
Parameter values, arguments without defaults start unset. -/
def Model.makeParams (m : Model) : ParameterSet :=
  (m.args.filter (fun a => decide (a.1 ∉ m.independentVars))).map
    (fun a => (a.1, { value := a.2 }))

/-- Applying one override to an existing entry: a bare scalar replaces only
`value`, a full specification replaces the entire entry. -/
def overrideEntry (p : Parameter) : Override → Parameter
  | .scalar q => { p with value := some q }
  | .full p2 => p2

/-- A fresh entry created from an override for a model parameter not yet
present in the base set. -/
def newEntry : Override → Parameter
  | .scalar q => { value := some q }
  | .full p => p

/-- Replace (in place, preserving order) the entry named `key`. -/
def applyOverride : ParameterSet → String → Override → ParameterSet
  | [], _, _ => []
  | (n, p) :: rest, key, ov =>
    if n = key then (n, overrideEntry p ov) :: rest
    else (n, p) :: applyOverride rest key ov

/-- Modelled from the spec: one step of the merge/override resolution.  A
key matching a name in the accumulated set replaces that entry per
`overrideEntry`; a key matching a model parameter name absent from the set
is inserted; any other key is extra and collected as a non-fatal warning. -/
def resolveStep (m : Model) (acc : ParameterSet × List String)
    (kv : String × Override) : ParameterSet × List String :=
  if (acc.1.lookup kv.1).isSome then
    (applyOverride acc.1 kv.1 kv.2, acc.2)
  else if kv.1 ∈ fitParamNames m then
    (acc.1 ++ [(kv.1, newEntry kv.2)], acc.2)
  else
    (acc.1, acc.2 ++ [kv.1])

/-- Modelled from the spec: `resolve(base, overrides)` — a pure function
producing a new ParameterSet (the base is never mutated) together with the
list of extra-key warnings. -/
def resolveParams (m : Model) (base : ParameterSet)
    (ovs : List (String × Override)) : ParameterSet × List String :=
  ovs.foldl (resolveStep m) (base, [])

/-- The first required fit parameter left without a value after resolution,
if any; its absence is a fatal `MissingParameterError` at resolve time. -/
def firstMissing (m : Model) (ps : ParameterSet) : Option String :=
  (fitParamNames m).find? (fun n => ((ps.lookup n).bind (fun p => p.value)).isNone)

/-- Positions of an indexed data array whose index label is a valid
position of every bound independent-variable array (the overlapping index
range). -/
def keptPositions (idx : List Nat) (ivars : List (String × List Cell)) : List Nat :=
  (List.range idx.length).filter
    (fun j => ivars.all (fun a => idx.getD j 0 < a.2.length))

/-- Modelled from the spec: the alignment step.  Plain positional data
requires every independent-variable array and the weights to match its
length exactly, else `ShapeMismatchError`; indexed data restricts the
independent-variable arrays (and data/weights in lockstep) to the
overlapping index range and tolerates mismatched lengths.  Weights default
to uniform 1. -/
def alignStep (data : DataArr) (ivars : List (String × List Cell))
    (weights? : Option (List ℚ)) :
    Except FitError (List Cell × List (String × List Cell) × List ℚ) :=
  match data with
  | .plain xs =>
    let w := weights?.getD (List.replicate xs.length 1)
    if ivars.all (fun a => a.2.length == xs.length) && (w.length == xs.length) then
      .ok (xs, ivars, w)
    else
      .error .shapeMismatch
  | .indexed idx xs =>
    let kept := keptPositions idx ivars
    let w := weights?.getD (List.replicate xs.length 1)
    .ok (kept.map (fun j => xs.getD j .nan),
         ivars.map (fun a => (a.1, kept.map (fun j => a.2.getD (idx.getD j 0) .nan))),
         kept.map (fun j => w.getD j 1))

/-- Keep exactly the elements whose mask entry is `false` (not flagged
missing); positions beyond the mask are kept. -/
def filterMask : List Bool → List α → List α
  | _, [] => []
  | [], xs => xs
  | b :: bs, x :: xs =>
    if b then filterMask bs xs else x :: filterMask bs xs

/-- Modelled from the spec: the missing-data policy applied jointly to the
aligned data, independent-variable arrays and weights.  `raise` fails with
`MissingDataError` when any observation is flagged missing; `omit` filters
the flagged positions out of all aligned arrays with the same positional
mask; `propagate` passes everything through unfiltered. -/
def applyNanPolicy (pol : NanPolicy) (missing : Cell → Bool) (d : List Cell)
    (iv : List (String × List Cell)) (w : List ℚ) :
    Except FitError (List Cell × List (String × List Cell) × List ℚ) :=
  match pol with
  | .raise => if d.any missing then .error .missingData else .ok (d, iv, w)
  | .omit =>
    let mask := d.map missing
    .ok (filterMask mask d, iv.map (fun a => (a.1, filterMask mask a.2)),
         filterMask mask w)
  | .propagate => .ok (d, iv, w)

/-- Write the trial values of the external minimizer back onto the varying
entries of a ParameterSet, in order, leaving fixed entries untouched and
preserving bounds and vary flags. -/
def setVaryValues : ParameterSet → List ℚ → ParameterSet
  | [], _ => []
  | (n, p) :: rest, vs =>
    if p.vary then
      match vs with
      | v :: vs2 => (n, { p with value := some v }) :: setVaryValues rest vs2
      | [] => (n, p) :: setVaryValues rest []
    else
      (n, p) :: setVaryValues rest vs

/-- The varying entries of a ParameterSet, in order. -/
def varyEntries (ps : ParameterSet) : ParameterSet :=
  ps.filter (fun e => e.2.vary)

/-- The valuation a ParameterSet induces on parameter names (unset names
read as 0; resolution guarantees all required names are set). -/
def valuationOf (ps : ParameterSet) : String → ℚ :=
  fun n => ((ps.lookup n).bind (fun p => p.value)).getD 0

/-- Look up a bound independent-variable array by name. -/
def ivarFn (iv : List (String × List Cell)) : String → List Cell :=
  fun n => (iv.lookup n).getD []

/-- Modelled from the spec: the residual array
`weights * (predicted - observed)`, elementwise. -/
def residualOf (w : List ℚ) (pred obs : List Cell) : List Cell :=
  List.zipWith Cell.smul w (List.zipWith Cell.sub pred obs)

/-- Modelled from the spec: the solve-and-package phase.  The residual
function evaluates the model at the trial values of the varying parameters;
the external minimizer receives only the varying parameters' initial values
and bounds; its output values are packaged back into a resolved
ParameterSet preserving bounds and vary flags. -/
def solvePhase (ev : EvalFn) (resolved : ParameterSet) (warns : List String)
    (d : List Cell) (iv : List (String × List Cell)) (w : List ℚ)
    (mini : Minimizer) : FitResult :=
  let vs := varyEntries resolved
  let init := vs.map (fun e => e.2.value.getD 0)
  let bnds := vs.map (fun e => (e.2.min, e.2.max))
  let resid := fun trial =>
    residualOf w (ev (valuationOf (setVaryValues resolved trial)) (ivarFn iv)) d
  let out := mini resid init bnds
  { params := setVaryValues resolved out.1
    success := out.2
    residual := resid out.1
    warnings := warns
    dataUsed := d
    ivarsUsed := iv }

/-- Modelled from the spec: `Model.fit`.  Resolve the parameters (starting
from the supplied set if given, else the introspected defaults), fail with
`MissingParameterError` on the first required parameter left unset; align
data, independent variables and weights, failing with `ShapeMismatchError`
on an unreconcilable length disagreement; apply the missing-data policy,
failing with `MissingDataError` under the `raise` policy; then delegate to
the external minimizer and package a FitResult.  All fatal errors abort
before the minimizer runs. -/
def Model.fit (m : Model) (data : DataArr) (params? : Option ParameterSet)
    (ivars : List (String × List Cell)) (ovs : List (String × Override))
    (weights? : Option (List ℚ)) (mini : Minimizer) :
    Except FitError FitResult :=
  match firstMissing m (resolveParams m (params?.getD m.makeParams) ovs).1 with
  | some n => .error (.missingParameter n)
  | none =>
    match alignStep data ivars weights? with
    | .error e => .error e
    | .ok (d1, iv1, w1) =>
      match applyNanPolicy m.nanPolicy m.missing d1 iv1 w1 with
      | .error e => .error e
      | .ok (d2, iv2, w2) =>
        .ok (solvePhase m.eval (resolveParams m (params?.getD m.makeParams) ovs).1
          (resolveParams m (params?.getD m.makeParams) ovs).2 d2 iv2 w2 mini)

/-- Modelled from the spec: the observable state a fit call could mutate —
the caller's ParameterSet and the Model.  A fit call is a pure pipeline
(resolve, align, filter, minimize, package) producing new copies at every
step; the caller's objects are handed back as they came in. -/
def Model.fitCall (m : Model) (data : DataArr) (params? : Option ParameterSet)
    (ivars : List (String × List Cell)) (ovs : List (String × Override))
    (weights? : Option (List ℚ)) (mini : Minimizer) :
    Except FitError FitResult × Option ParameterSet × Model :=
  (m.fit data params? ivars ovs weights? mini, params?, m)

/-- Modelled from the spec: supplying `sigma` is the same fit with
`weights = 1 / sigma`. -/
def Model.fitWithSigma (m : Model) (data : DataArr) (params? : Option ParameterSet)
    (ivars : List (String × List Cell)) (ovs : List (String × Override))
    (sigma : List ℚ) (mini : Minimizer) : Except FitError FitResult :=
  m.fit data params? ivars ovs (some (sigma.map (fun s => 1 / s))) mini

/-! ### A concrete instance, mirroring the notebook's decay example -/

/-- A concrete model with the notebook's signature `decay(t, N, tau)` and
independent variable `t`; the callable itself is a black box, represented
here by a simple computable surrogate. -/
def demoModel : Model where
  args := [("t", none), ("N", none), ("tau", none)]
  independentVars := ["t"]
  eval := fun v iv => (iv "t").map (fun c => Cell.smul (v "N") c)

/-- The demo model under the `omit` missing-data policy. -/
def demoOmitModel : Model := { demoModel with nanPolicy := .omit }

/-- Explicit initial parameters, as built by `make_params` and then set. -/
def demoParams : ParameterSet :=
  [("N", { value := some 10 }), ("tau", { value := some 1, min := some 0 })]

/-- Initial parameters with `N` held fixed (`vary = false`). -/
def demoFixParams : ParameterSet :=
  [("N", { value := some 7, vary := false }), ("tau", { value := some 1, min := some 0 })]

/-- A small observed data array without missing values. -/
def demoData : List Cell := [.num 7, .num 5, .num 3]

/-- The same data with a missing observation at position 1. -/
def demoHoleData : List Cell := [.num 7, .nan, .num 3]

/-- The bound independent-variable array for `t`. -/
def demoT : List (String × List Cell) := [("t", [.num 0, .num 1, .num 2])]

/-- A trivial external minimizer: return the initial values, reporting
success. -/
def demoMini : Minimizer := fun _ init _ => (init, true)

/-- The FitResult of the demo fit with `demoParams` (the solve phase at the
aligned, unfiltered arrays). -/
def demoRes : FitResult :=
  solvePhase demoModel.eval demoParams [] demoData demoT (List.replicate 3 1) demoMini

/-- The FitResult of the demo fit with `demoFixParams`. -/
def demoFixRes : FitResult :=
  solvePhase demoModel.eval demoFixParams [] demoData demoT (List.replicate 3 1) demoMini

/-! ### Basic lemmas about association-list lookup and the resolution step -/

theorem lookup_cons {α : Type} (k n : String) (v : α) (rest : List (String × α)) :
    List.lookup k ((n, v) :: rest) = if k = n then some v else List.lookup k rest := by
  simp only [List.lookup]
  by_cases h : k = n
  · simp [h]
  · simp [h, beq_eq_false_iff_ne.mpr h]

theorem lookup_append_ne {α : Type} (k n : String) (v : α) (l : List (String × α))
    (hne : k ≠ n) : List.lookup k (l ++ [(n, v)]) = List.lookup k l := by
  induction l with
  | nil => simp [lookup_cons, hne]
  | cons e rest ih =>
    obtain ⟨n0, v0⟩ := e
    rw [List.cons_append, lookup_cons, lookup_cons, ih]

theorem lookup_applyOverride_self (ps : ParameterSet) (k : String) (ov : Override)
    (p : Parameter) (h : ps.lookup k = some p) :
    (applyOverride ps k ov).lookup k = some (overrideEntry p ov) := by
  induction ps with
  | nil => simp [List.lookup] at h
  | cons e rest ih =>
    obtain ⟨n, q⟩ := e
    rw [lookup_cons] at h
    by_cases hk : k = n
    · simp only [hk, if_pos rfl] at h
      cases h
      simp [applyOverride, hk, lookup_cons]
    · rw [if_neg hk] at h
      have hnk : ¬n = k := fun hc => hk hc.symm
      simp only [applyOverride, if_neg hnk]
      rw [lookup_cons, if_neg hk]
      exact ih h

theorem lookup_applyOverride_ne (ps : ParameterSet) (key k : String) (ov : Override)
    (hne : k ≠ key) : (applyOverride ps key ov).lookup k = ps.lookup k := by
  induction ps with
  | nil => simp [applyOverride]
  | cons e rest ih =>
    obtain ⟨n, q⟩ := e
    by_cases hk : n = key
    · simp only [applyOverride, if_pos hk]
      rw [lookup_cons, lookup_cons]
      have : ¬k = n := fun hc => hne (hc.trans hk)
      rw [if_neg this, if_neg this]
    · simp only [applyOverride, if_neg hk]
      rw [lookup_cons, lookup_cons, ih]

theorem lookup_resolveStep_ne (m : Model) (acc : ParameterSet × List String)
    (kv : String × Override) (k : String) (hne : kv.1 ≠ k) :
    (resolveStep m acc kv).1.lookup k = acc.1.lookup k := by
  unfold resolveStep
  by_cases h1 : (acc.1.lookup kv.1).isSome
  · simp only [if_pos h1]
    exact lookup_applyOverride_ne acc.1 kv.1 k kv.2 (fun hc => hne hc.symm)
  · simp only [if_neg h1]
    by_cases h2 : kv.1 ∈ fitParamNames m
    · simp only [if_pos h2]
      exact lookup_append_ne k kv.1 (newEntry kv.2) acc.1 (fun hc => hne hc.symm)
    · simp only [if_neg h2]

theorem lookup_foldl_resolveStep_ne (m : Model) (ovs : List (String × Override))
    (k : String) (h : ∀ e ∈ ovs, e.1 ≠ k) :
    ∀ acc : ParameterSet × List String,
      ((ovs.foldl (resolveStep m) acc).1.lookup k) = acc.1.lookup k := by
  induction ovs with
  | nil => intro acc; rfl
  | cons e rest ih =>
    intro acc
    rw [List.foldl_cons]
    rw [ih (fun x hx => h x (List.mem_cons_of_mem e hx))]
    exact lookup_resolveStep_ne m acc e k (h e (List.mem_cons_self e rest))

theorem lookup_resolveParams_ne (m : Model) (base : ParameterSet)
    (ovs : List (String × Override)) (k : String) (h : ∀ e ∈ ovs, e.1 ≠ k) :
    (resolveParams m base ovs).1.lookup k = base.lookup k :=
  lookup_foldl_resolveStep_ne m ovs k h (base, [])

theorem lookup_resolveStep_none (m : Model) (acc : ParameterSet × List String)
    (kv : String × Override) (k : String) (h1 : acc.1.lookup k = none)
    (h2 : k ∉ fitParamNames m) :
    (resolveStep m acc kv).1.lookup k = none := by
  by_cases hk : kv.1 = k
  · unfold resolveStep
    rw [hk]
    simp only [h1, Option.isSome_none, Bool.false_eq_true, if_false]
    rw [if_neg h2]
    exact h1
  · rw [lookup_resolveStep_ne m acc kv k hk]
    exact h1

theorem lookup_foldl_resolveStep_none (m : Model) (ovs : List (String × Override))
    (k : String) (h2 : k ∉ fitParamNames m) :
    ∀ acc : ParameterSet × List String, acc.1.lookup k = none →
      ((ovs.foldl (resolveStep m) acc).1.lookup k) = none := by
  induction ovs with
  | nil => intro acc h1; exact h1
  | cons e rest ih =>
    intro acc h1
    rw [List.foldl_cons]
    exact ih _ (lookup_resolveStep_none m acc e k h1 h2)

theorem resolveStep_extra (m : Model) (acc : ParameterSet × List String)
    (k : String) (v : Override) (h1 : acc.1.lookup k = none)
    (h2 : k ∉ fitParamNames m) :
    resolveStep m acc (k, v) = (acc.1, acc.2 ++ [k]) := by
  simp only [resolveStep, h1, Option.isSome_none, Bool.false_eq_true, if_false]
  rw [if_neg h2]

theorem resolveParams_concat_extra (m : Model) (base : ParameterSet)
    (ovs : List (String × Override)) (k : String) (v : Override)
    (h1 : base.lookup k = none) (h2 : k ∉ fitParamNames m) :
    resolveParams m base (ovs ++ [(k, v)]) =
      ((resolveParams m base ovs).1, (resolveParams m base ovs).2 ++ [k]) := by
  have hnone : ((ovs.foldl (resolveStep m) (base, [])).1.lookup k) = none :=
    lookup_foldl_resolveStep_none m ovs k h2 (base, []) h1
  unfold resolveParams
  rw [List.foldl_append, List.foldl_cons, List.foldl_nil]
  exact resolveStep_extra m _ k v hnone h2

theorem lookup_setVaryValues_fixed :
    ∀ (ps : ParameterSet) (vs : List ℚ) (n : String) (p : Parameter),
      ps.lookup n = some p → p.vary = false →
      (setVaryValues ps vs).lookup n = some p := by
  intro ps
  induction ps with
  | nil => intro vs n p h _; simp [List.lookup] at h
  | cons e rest ih =>
    intro vs n p h hfix
    obtain ⟨n0, q⟩ := e
    rw [lookup_cons] at h
    by_cases hn : n = n0
    · rw [if_pos hn] at h
      cases h
      simp only [setVaryValues, hfix, Bool.false_eq_true, if_false]
      rw [lookup_cons, if_pos hn]
    · rw [if_neg hn] at h
      by_cases hv : q.vary
      · simp only [setVaryValues, hv, if_true]
        cases vs with
        | nil => rw [lookup_cons, if_neg hn]; exact ih [] n p h hfix
        | cons v vs2 => rw [lookup_cons, if_neg hn]; exact ih vs2 n p h hfix
      · simp only [setVaryValues, hv, Bool.false_eq_true, if_false]
        rw [lookup_cons, if_neg hn]
        exact ih vs n p h hfix

theorem find?_unique {l : List String} {p : String} {f : String → Bool}
    (hmem : p ∈ l) (hp : f p = true)
    (hothers : ∀ q ∈ l, q ≠ p → f q = false) : l.find? f = some p := by
  induction l with
  | nil => cases hmem
  | cons a rest ih =>
    by_cases ha : f a
    · have hap : a = p := by
        by_contra hc
        have := hothers a (List.mem_cons_self a rest) hc
        rw [this] at ha
        cases ha
      rw [List.find?_cons_of_pos _ ha, hap]
    · rw [List.find?_cons_of_neg _ ha]
      have hpr : p ∈ rest := by
        cases List.mem_cons.mp hmem with
        | inl h => exact absurd (h ▸ hp) ha
        | inr h => exact h
      exact ih hpr (fun q hq hne => hothers q (List.mem_cons_of_mem a hq) hne)

theorem mem_map_fst_of_lookup {α : Type} {l : List (String × α)} {k : String}
    {v : α} (h : l.lookup k = some v) : k ∈ l.map (fun a => a.1) := by
  induction l with
  | nil => simp [List.lookup] at h
  | cons e rest ih =>
    obtain ⟨n, w⟩ := e
    rw [lookup_cons] at h
    by_cases hk : k = n
    · simp [hk]
    · rw [if_neg hk] at h
      simp only [List.map_cons, List.mem_cons]
      exact Or.inr (ih h)

theorem lookup_filter_map_params (args : List (String × Option ℚ))
    (ivs : List String) (p : String) (d : Option ℚ)
    (h : args.lookup p = some d) (hi : p ∉ ivs) :
    ((args.filter (fun a => decide (a.1 ∉ ivs))).map
        (fun a => (a.1, ({ value := a.2 } : Parameter)))).lookup p =
      some { value := d } := by
  induction args with
  | nil => simp [List.lookup] at h
  | cons e rest ih =>
    obtain ⟨n, d0⟩ := e
    rw [lookup_cons] at h
    by_cases hp : p = n
    · rw [if_pos hp] at h
      injection h with h2
      subst h2
      subst hp
      simp [List.filter_cons, hi, lookup_cons]
    · rw [if_neg hp] at h
      by_cases hk : n ∈ ivs
      · simp only [List.filter_cons]
        rw [if_neg (by simp [hk])]
        exact ih h
      · simp only [List.filter_cons]
        rw [if_pos (by simpa using hk), List.map_cons, lookup_cons, if_neg hp]
        exact ih h

theorem lookup_makeParams (m : Model) (p : String) (d : Option ℚ)
    (h : m.args.lookup p = some d) (hi : p ∉ m.independentVars) :
    m.makeParams.lookup p = some { value := d } :=
  lookup_filter_map_params m.args m.independentVars p d h hi

theorem mem_fitParamNames (m : Model) (p : String) (d : Option ℚ)
    (h : m.args.lookup p = some d) (hi : p ∉ m.independentVars) :
    p ∈ fitParamNames m := by
  unfold fitParamNames
  rw [List.mem_filter]
  exact ⟨mem_map_fst_of_lookup h, by simpa using hi⟩

theorem any_congr_mem {α : Type} (l : List α) (f g : α → Bool)
    (h : ∀ a ∈ l, f a = g a) : l.any f = l.any g := by
  induction l with
  | nil => rfl
  | cons a rest ih =>
    simp only [List.any_cons, h a (List.mem_cons_self a rest),
      ih (fun x hx => h x (List.mem_cons_of_mem a hx))]

theorem getD_mem_or {α : Type} (l : List α) (j : Nat) (d : α) :
    l.getD j d ∈ l ∨ l.getD j d = d := by
  by_cases hj : j < l.length
  · left; rw [List.getD_eq_getElem l d hj]; exact List.getElem_mem hj
  · right; exact List.getD_eq_default l d (Nat.le_of_not_lt hj)

theorem applyNanPolicy_congr (pol : NanPolicy) (f g : Cell → Bool) (d : List Cell)
    (iv : List (String × List Cell)) (w : List ℚ) (h : ∀ c ∈ d, f c = g c) :
    applyNanPolicy pol f d iv w = applyNanPolicy pol g d iv w := by
  cases pol
  · simp only [applyNanPolicy, any_congr_mem d f g h]
  · simp only [applyNanPolicy, List.map_congr_left h]
  · rfl

theorem applyNanPolicy_error (pol : NanPolicy) (f : Cell → Bool) (d : List Cell)
    (iv : List (String × List Cell)) (w : List ℚ) (e : FitError)
    (h : applyNanPolicy pol f d iv w = .error e) : e = .missingData := by
  cases pol
  · unfold applyNanPolicy at h
    by_cases hd : d.any f
    · rw [if_pos hd] at h; injection h with h2; exact h2.symm
    · rw [if_neg hd] at h; cases h
  · cases h
  · cases h

theorem alignStep_cells (data : DataArr) (ivars : List (String × List Cell))
    (weights? : Option (List ℚ)) (d1 : List Cell)
    (iv1 : List (String × List Cell)) (w1 : List ℚ)
    (h : alignStep data ivars weights? = .ok (d1, iv1, w1)) :
    ∀ c ∈ d1, c ∈ data.cells ∨ c = .nan := by
  cases data with
  | plain xs =>
    simp only [alignStep] at h
    split at h
    · injection h with h2
      have h3 : xs = d1 := congrArg Prod.fst h2
      intro c hcmem
      rw [← h3] at hcmem
      exact Or.inl hcmem
    · cases h
  | indexed idx xs =>
    simp only [alignStep] at h
    injection h with h2
    have h3 : (keptPositions idx ivars).map (fun j => xs.getD j .nan) = d1 :=
      congrArg Prod.fst h2
    intro c hcmem
    rw [← h3] at hcmem
    obtain ⟨j, _, hj2⟩ := List.mem_map.mp hcmem
    rw [← hj2]
    exact getD_mem_or xs j .nan

/-! ### Structure-update reductions for the pluggable missing predicate -/

theorem missing_set_missing (m : Model) (f : Cell → Bool) :
    ({ m with missing := f } : Model).missing = f := rfl

theorem nanPolicy_set_missing (m : Model) (f : Cell → Bool) :
    ({ m with missing := f } : Model).nanPolicy = m.nanPolicy := rfl

theorem eval_set_missing (m : Model) (f : Cell → Bool) :
    ({ m with missing := f } : Model).eval = m.eval := rfl

theorem makeParams_set_missing (m : Model) (f : Cell → Bool) :
    ({ m with missing := f } : Model).makeParams = m.makeParams := rfl

theorem resolveParams_set_missing (m : Model) (f : Cell → Bool) :
    resolveParams { m with missing := f } = resolveParams m := rfl

theorem firstMissing_set_missing (m : Model) (f : Cell → Bool) :
    firstMissing { m with missing := f } = firstMissing m := rfl

theorem solvePhase_warns (ev : EvalFn) (res : ParameterSet) (ws1 ws2 : List String)
    (d : List Cell) (iv : List (String × List Cell)) (w : List ℚ) (mini : Minimizer) :
    solvePhase ev res ws2 d iv w mini =
      { solvePhase ev res ws1 d iv w mini with warnings := ws2 } := rfl

/-! ### The claims -/

/-- C1: a fit call never mutates the `params` ParameterSet passed in or the
Model — whether it returns a FitResult or aborts with a fatal error, the
caller's objects come back exactly as they went in, and on a fatal error no
partial FitResult is returned. -/
theorem fit_never_mutates (m : Model) (data : DataArr) (params? : Option ParameterSet)
    (ivars : List (String × List Cell)) (ovs : List (String × Override))
    (weights? : Option (List ℚ)) (mini : Minimizer) :
    (m.fitCall data params? ivars ovs weights? mini).2.1 = params? ∧
    (m.fitCall data params? ivars ovs weights? mini).2.2 = m ∧
    ∀ e, (m.fitCall data params? ivars ovs weights? mini).1 = .error e →
      ∀ r, (m.fitCall data params? ivars ovs weights? mini).1 ≠ .ok r := by
  refine ⟨rfl, rfl, ?_⟩
  intro e he r hr
  rw [he] at hr
  cases hr

theorem fit_never_mutates_witness :
    (demoModel.fitCall (.plain demoData) none demoT [] none demoMini).2.1 = none ∧
    (demoModel.fitCall (.plain demoData) none demoT [] none demoMini).1 ≠ .ok demoRes :=
  ⟨(fit_never_mutates demoModel (.plain demoData) none demoT [] none demoMini).1,
   (fit_never_mutates demoModel (.plain demoData) none demoT [] none demoMini).2.2
     (.missingParameter "N") rfl demoRes⟩

/-- C2: resolving an override whose key is present in the base set replaces
only `value` when the override is a bare scalar (preserving `min`, `max`,
`vary`), and replaces the entire entry when the override is a full
Parameter specification. -/
theorem resolve_override_paths (m : Model) (base : ParameterSet) (k : String)
    (p p2 : Parameter) (q : ℚ) (h : base.lookup k = some p) :
    (∃ p1, (resolveParams m base [(k, Override.scalar q)]).1.lookup k = some p1 ∧
        p1.value = some q ∧ p1.min = p.min ∧ p1.max = p.max ∧ p1.vary = p.vary) ∧
    (resolveParams m base [(k, Override.full p2)]).1.lookup k = some p2 := by
  have hsome : (base.lookup k).isSome = true := by rw [h]; rfl
  have hstep : ∀ ov : Override, (resolveParams m base [(k, ov)]).1 = applyOverride base k ov := by
    intro ov
    unfold resolveParams
    rw [List.foldl_cons, List.foldl_nil]
    simp only [resolveStep, hsome, if_true]
  constructor
  · refine ⟨{ p with value := some q }, ?_, rfl, rfl, rfl, rfl⟩
    rw [hstep]
    exact lookup_applyOverride_self base k _ p h
  · rw [hstep]
    exact lookup_applyOverride_self base k _ p h

theorem resolve_override_paths_witness :
    (∃ p1, (resolveParams demoModel demoParams [("tau", Override.scalar 3)]).1.lookup "tau" =
        some p1 ∧ p1.value = some 3 ∧ p1.min = some 0 ∧ p1.max = none ∧ p1.vary = true) ∧
    (resolveParams demoModel demoParams
        [("tau", Override.full { value := some 4, vary := false })]).1.lookup "tau" =
      some { value := some 4, vary := false } :=
  resolve_override_paths demoModel demoParams "tau"
    { value := some 1, min := some 0 } { value := some 4, vary := false } 3 rfl

/-- C3: when a fit parameter has no declared default, no valued entry in
the supplied ParameterSet, and no keyword override — while every other fit
parameter is valued — the fit fails with `MissingParameterError` naming
exactly that parameter, at resolve time, for every external minimizer
(which is therefore never invoked). -/
theorem fit_missing_parameter (m : Model) (data : DataArr)
    (params? : Option ParameterSet) (ivars : List (String × List Cell))
    (ovs : List (String × Override)) (weights? : Option (List ℚ)) (p : String)
    (harg : m.args.lookup p = some none)
    (hind : p ∉ m.independentVars)
    (hbase : ∀ ps, params? = some ps → (ps.lookup p).bind (fun x => x.value) = none)
    (hnov : ∀ e ∈ ovs, e.1 ≠ p)
    (honly : ∀ q ∈ fitParamNames m, q ≠ p →
      (((resolveParams m (params?.getD m.makeParams) ovs).1.lookup q).bind
          (fun x => x.value)).isSome = true) :
    ∀ mini, m.fit data params? ivars ovs weights? mini =
      .error (.missingParameter p) := by
  intro mini
  have hres : (resolveParams m (params?.getD m.makeParams) ovs).1.lookup p =
      (params?.getD m.makeParams).lookup p := lookup_resolveParams_ne m _ ovs p hnov
  have hval : ((params?.getD m.makeParams).lookup p).bind (fun x => x.value) = none := by
    cases hps : params? with
    | none =>
      simp only [hps, Option.getD_none]
      rw [lookup_makeParams m p none harg hind]
      rfl
    | some ps =>
      simpa only [Option.getD_some] using hbase ps hps
  have hfm : firstMissing m (resolveParams m (params?.getD m.makeParams) ovs).1 = some p := by
    apply find?_unique (mem_fitParamNames m p none harg hind)
    · show (((resolveParams m (params?.getD m.makeParams) ovs).1.lookup p).bind
        (fun x => x.value)).isNone = true
      rw [hres, hval]
      rfl
    · intro q hq hne
      have hs := honly q hq hne
      show (((resolveParams m (params?.getD m.makeParams) ovs).1.lookup q).bind
        (fun x => x.value)).isNone = false
      cases hopt : ((resolveParams m (params?.getD m.makeParams) ovs).1.lookup q).bind
          (fun x => x.value) with
      | none => rw [hopt] at hs; cases hs
      | some v => rfl
  unfold Model.fit
  rw [hfm]

theorem fit_missing_parameter_witness :
    demoModel.fit (.plain demoData) none demoT [("tau", Override.scalar 1)] none demoMini =
      .error (.missingParameter "N") :=
  fit_missing_parameter demoModel (.plain demoData) none demoT
    [("tau", Override.scalar 1)] none "N" (by decide) (by decide)
    (by intro ps h; cases h) (by decide) (by decide) demoMini

/-- C4: under the default `raise` missing-data policy, a fit over plain
data containing any observation flagged missing fails with
`MissingDataError`, for every external minimizer — the minimizer is never
invoked. -/
theorem fit_raise_policy (m : Model) (xs : List Cell) (params? : Option ParameterSet)
    (ivars : List (String × List Cell)) (ovs : List (String × Override))
    (weights? : Option (List ℚ))
    (hpol : m.nanPolicy = .raise)
    (hres : firstMissing m (resolveParams m (params?.getD m.makeParams) ovs).1 = none)
    (hlen : (ivars.all (fun a => a.2.length == xs.length) &&
      ((weights?.getD (List.replicate xs.length 1)).length == xs.length)) = true)
    (hmiss : xs.any m.missing = true) :
    ∀ mini, m.fit (.plain xs) params? ivars ovs weights? mini = .error .missingData := by
  intro mini
  have halign : alignStep (.plain xs) ivars weights? =
      .ok (xs, ivars, weights?.getD (List.replicate xs.length 1)) := by
    simp only [alignStep]
    rw [if_pos hlen]
  have hnan : applyNanPolicy m.nanPolicy m.missing xs ivars
      (weights?.getD (List.replicate xs.length 1)) = .error .missingData := by
    rw [hpol]
    simp only [applyNanPolicy]
    rw [if_pos hmiss]
  simp only [Model.fit, hres, halign, hnan]

theorem fit_raise_policy_witness :
    demoModel.fit (.plain demoHoleData) (some demoParams) demoT [] none demoMini =
      .error .missingData :=
  fit_raise_policy demoModel demoHoleData (some demoParams) demoT [] none
    rfl (by decide) (by decide) (by decide) demoMini

/-- C5: under the `omit` missing-data policy, a fit over plain data removes
exactly the positions flagged missing from the data, from every bound
independent-variable array and from the weights — the same positional mask
applied to all aligned arrays — and then proceeds to the solve phase. -/
theorem fit_omit_policy (m : Model) (xs : List Cell) (params? : Option ParameterSet)
    (ivars : List (String × List Cell)) (ovs : List (String × Override))
    (weights? : Option (List ℚ)) (mini : Minimizer)
    (hpol : m.nanPolicy = .omit)
    (hres : firstMissing m (resolveParams m (params?.getD m.makeParams) ovs).1 = none)
    (hlen : (ivars.all (fun a => a.2.length == xs.length) &&
      ((weights?.getD (List.replicate xs.length 1)).length == xs.length)) = true) :
    m.fit (.plain xs) params? ivars ovs weights? mini =
      .ok (solvePhase m.eval (resolveParams m (params?.getD m.makeParams) ovs).1
        (resolveParams m (params?.getD m.makeParams) ovs).2
        (filterMask (xs.map m.missing) xs)
        (ivars.map (fun a => (a.1, filterMask (xs.map m.missing) a.2)))
        (filterMask (xs.map m.missing) (weights?.getD (List.replicate xs.length 1)))
        mini) := by
  have halign : alignStep (.plain xs) ivars weights? =
      .ok (xs, ivars, weights?.getD (List.replicate xs.length 1)) := by
    simp only [alignStep]
    rw [if_pos hlen]
  have hnan : applyNanPolicy m.nanPolicy m.missing xs ivars
      (weights?.getD (List.replicate xs.length 1)) =
      .ok (filterMask (xs.map m.missing) xs,
           ivars.map (fun a => (a.1, filterMask (xs.map m.missing) a.2)),
           filterMask (xs.map m.missing) (weights?.getD (List.replicate xs.length 1))) := by
    rw [hpol]
    rfl
  simp only [Model.fit, hres, halign, hnan]

theorem fit_omit_policy_witness :
    demoOmitModel.fit (.plain demoHoleData) (some demoParams) demoT [] none demoMini =
      .ok (solvePhase demoOmitModel.eval demoParams []
        (filterMask (demoHoleData.map demoOmitModel.missing) demoHoleData)
        (demoT.map (fun a => (a.1, filterMask (demoHoleData.map demoOmitModel.missing) a.2)))
        (filterMask (demoHoleData.map demoOmitModel.missing) (List.replicate 3 1))
        demoMini) :=
  fit_omit_policy demoOmitModel demoHoleData (some demoParams) demoT [] none demoMini
    rfl (by decide) (by decide)

/-- C6: a keyword override whose key matches neither a name in the base
ParameterSet nor a Model parameter name is collected as a non-fatal
warning, never a failure: whenever the fit without it succeeds, the fit
with it still returns the same normal FitResult, with the extra key
appended to the collected warnings. -/
theorem fit_extra_override (m : Model) (data : DataArr) (params? : Option ParameterSet)
    (ivars : List (String × List Cell)) (ovs : List (String × Override))
    (weights? : Option (List ℚ)) (mini : Minimizer) (k : String) (v : Override)
    (r : FitResult)
    (hk1 : (params?.getD m.makeParams).lookup k = none)
    (hk2 : k ∉ fitParamNames m)
    (hok : m.fit data params? ivars ovs weights? mini = .ok r) :
    m.fit data params? ivars (ovs ++ [(k, v)]) weights? mini =
      .ok { r with warnings := r.warnings ++ [k] } := by
  have hconcat := resolveParams_concat_extra m (params?.getD m.makeParams) ovs k v hk1 hk2
  simp only [Model.fit] at hok
  simp only [Model.fit, hconcat]
  cases hfm : firstMissing m (resolveParams m (params?.getD m.makeParams) ovs).1 with
  | some n => rw [hfm] at hok; cases hok
  | none =>
    simp only [hfm] at hok ⊢
    cases halign : alignStep data ivars weights? with
    | error e => simp only [halign] at hok; cases hok
    | ok t1 =>
      obtain ⟨d1, iv1, w1⟩ := t1
      simp only [halign] at hok ⊢
      cases hnan : applyNanPolicy m.nanPolicy m.missing d1 iv1 w1 with
      | error e => simp only [hnan] at hok; cases hok
      | ok t2 =>
        obtain ⟨d2, iv2, w2⟩ := t2
        simp only [hnan] at hok ⊢
        injection hok with h2
        subst h2
        rfl

theorem fit_extra_override_witness :
    demoModel.fit (.plain demoData) (some demoParams) demoT
        [("xtra", Override.scalar 5)] none demoMini =
      .ok { demoRes with warnings := demoRes.warnings ++ ["xtra"] } :=
  fit_extra_override demoModel (.plain demoData) (some demoParams) demoT [] none demoMini
    "xtra" (Override.scalar 5) demoRes (by decide) (by decide) rfl

/-- C7: a parameter held fixed (`vary = false`) keeps exactly its value,
bounds and flag at entry to the solve across any fit, regardless of the
data and the external minimizer: the returned FitResult's parameter set
differs from the resolved one only by writing the minimizer's output onto
the varying entries. -/
theorem fit_fixed_parameters (m : Model) (data : DataArr) (params? : Option ParameterSet)
    (ivars : List (String × List Cell)) (ovs : List (String × Override))
    (weights? : Option (List ℚ)) (mini : Minimizer) (r : FitResult)
    (n : String) (p : Parameter)
    (hok : m.fit data params? ivars ovs weights? mini = .ok r)
    (hn : (resolveParams m (params?.getD m.makeParams) ovs).1.lookup n = some p)
    (hfix : p.vary = false) :
    r.params.lookup n = some p ∧
    ∃ vals, r.params =
      setVaryValues (resolveParams m (params?.getD m.makeParams) ovs).1 vals := by
  simp only [Model.fit] at hok
  cases hfm : firstMissing m (resolveParams m (params?.getD m.makeParams) ovs).1 with
  | some n2 => rw [hfm] at hok; cases hok
  | none =>
    simp only [hfm] at hok
    cases halign : alignStep data ivars weights? with
    | error e => simp only [halign] at hok; cases hok
    | ok t1 =>
      obtain ⟨d1, iv1, w1⟩ := t1
      simp only [halign] at hok
      cases hnan : applyNanPolicy m.nanPolicy m.missing d1 iv1 w1 with
      | error e => simp only [hnan] at hok; cases hok
      | ok t2 =>
        obtain ⟨d2, iv2, w2⟩ := t2
        simp only [hnan] at hok
        injection hok with h2
        subst h2
        refine ⟨?_, ⟨_, rfl⟩⟩
        exact lookup_setVaryValues_fixed _ _ n p hn hfix

theorem fit_fixed_parameters_witness :
    demoFixRes.params.lookup "N" = some { value := some 7, vary := false } ∧
    ∃ vals, demoFixRes.params = setVaryValues demoFixParams vals :=
  fit_fixed_parameters demoModel (.plain demoData) (some demoFixParams) demoT [] none
    demoMini demoFixRes "N" { value := some 7, vary := false } rfl rfl rfl

theorem fit_error_cases (m : Model) (data : DataArr) (params? : Option ParameterSet)
    (ivars : List (String × List Cell)) (ovs : List (String × Override))
    (weights? : Option (List ℚ)) (mini : Minimizer) (e : FitError)
    (h : m.fit data params? ivars ovs weights? mini = .error e) :
    (∃ n, e = .missingParameter n) ∨ alignStep data ivars weights? = .error e ∨
      e = .missingData := by
  simp only [Model.fit] at h
  cases hfm : firstMissing m (resolveParams m (params?.getD m.makeParams) ovs).1 with
  | some n =>
    rw [hfm] at h
    injection h with h2
    exact Or.inl ⟨n, h2.symm⟩
  | none =>
    simp only [hfm] at h
    cases halign : alignStep data ivars weights? with
    | error e2 =>
      simp only [halign] at h
      injection h with h2
      rw [← h2]
      exact Or.inr (Or.inl rfl)
    | ok t1 =>
      obtain ⟨d1, iv1, w1⟩ := t1
      simp only [halign] at h
      cases hnan : applyNanPolicy m.nanPolicy m.missing d1 iv1 w1 with
      | error e2 =>
        simp only [hnan] at h
        injection h with h2
        rw [← h2]
        exact Or.inr (Or.inr (applyNanPolicy_error m.nanPolicy m.missing d1 iv1 w1 e2 hnan))
      | ok t2 =>
        obtain ⟨d2, iv2, w2⟩ := t2
        simp only [hnan] at h
        cases h

/-- C8: indexed data is aligned, not rejected — the independent-variable
arrays (and the data/weights in lockstep) are restricted to the
overlapping index range, and a fit over indexed data can never fail with
`ShapeMismatchError` despite mismatched lengths; plain positional data
whose lengths disagree with the independent-variable or weights arrays
makes the fit fail with `ShapeMismatchError` (once resolution passes). -/
theorem fit_alignment_paths :
    (∀ (m : Model) (idx : List Nat) (xs : List Cell) (params? : Option ParameterSet)
        (ivars : List (String × List Cell)) (ovs : List (String × Override))
        (weights? : Option (List ℚ)) (mini : Minimizer),
      alignStep (.indexed idx xs) ivars weights? =
        .ok ((keptPositions idx ivars).map (fun j => xs.getD j .nan),
          ivars.map (fun a => (a.1, (keptPositions idx ivars).map
            (fun j => a.2.getD (idx.getD j 0) .nan))),
          (keptPositions idx ivars).map
            (fun j => (weights?.getD (List.replicate xs.length 1)).getD j 1)) ∧
      m.fit (.indexed idx xs) params? ivars ovs weights? mini ≠ .error .shapeMismatch) ∧
    (∀ (m : Model) (xs : List Cell) (params? : Option ParameterSet)
        (ivars : List (String × List Cell)) (ovs : List (String × Override))
        (weights? : Option (List ℚ)) (mini : Minimizer),
      firstMissing m (resolveParams m (params?.getD m.makeParams) ovs).1 = none →
      (ivars.all (fun a => a.2.length == xs.length) &&
        ((weights?.getD (List.replicate xs.length 1)).length == xs.length)) = false →
      m.fit (.plain xs) params? ivars ovs weights? mini = .error .shapeMismatch) := by
  constructor
  · intro m idx xs params? ivars ovs weights? mini
    refine ⟨rfl, ?_⟩
    intro hcontra
    rcases fit_error_cases m (.indexed idx xs) params? ivars ovs weights? mini
        .shapeMismatch hcontra with ⟨n, hn⟩ | halign | hmd
    · cases hn
    · simp only [alignStep] at halign
      cases halign
    · cases hmd
  · intro m xs params? ivars ovs weights? mini hres hfalse
    have halign : alignStep (.plain xs) ivars weights? = .error .shapeMismatch := by
      simp only [alignStep]
      rw [if_neg (by simp [hfalse])]
    simp only [Model.fit, hres, halign]

theorem fit_alignment_paths_witness :
    (alignStep (.indexed [1, 2] [Cell.num 5, Cell.num 3]) demoT none =
      .ok ([Cell.num 5, Cell.num 3], [("t", [Cell.num 1, Cell.num 2])], [1, 1])) ∧
    (demoModel.fit (.indexed [1, 2] [Cell.num 5, Cell.num 3]) (some demoParams) demoT []
        none demoMini ≠ .error .shapeMismatch) ∧
    (demoModel.fit (.plain [Cell.num 7]) (some demoParams) demoT [] none demoMini =
      .error .shapeMismatch) :=
  ⟨(fit_alignment_paths.1 demoModel [1, 2] [Cell.num 5, Cell.num 3] (some demoParams)
      demoT [] none demoMini).1,
   (fit_alignment_paths.1 demoModel [1, 2] [Cell.num 5, Cell.num 3] (some demoParams)
      demoT [] none demoMini).2,
   fit_alignment_paths.2 demoModel [Cell.num 7] (some demoParams) demoT [] none demoMini
     (by decide) (by decide)⟩

/-- C9: supplying a weights array `w` is the same fit as supplying
`sigma = 1 / w`: the two parameterizations produce identical residual
functions and hence identical fit outcomes. -/
theorem fit_weights_sigma (m : Model) (data : DataArr) (params? : Option ParameterSet)
    (ivars : List (String × List Cell)) (ovs : List (String × Override))
    (w : List ℚ) (mini : Minimizer) (hw : ∀ x ∈ w, x ≠ 0) :
    m.fitWithSigma data params? ivars ovs (w.map (fun x => 1 / x)) mini =
      m.fit data params? ivars ovs (some w) mini := by
  unfold Model.fitWithSigma
  have hww : (w.map (fun x => 1 / x)).map (fun s => 1 / s) = w := by
    rw [List.map_map]
    conv_rhs => rw [← List.map_id w]
    apply List.map_congr_left
    intro x hx
    simp only [Function.comp_apply, one_div_one_div, id_eq]
  rw [hww]

theorem fit_weights_sigma_witness :
    demoModel.fitWithSigma (.plain demoData) (some demoParams) demoT []
        (([1, 2, 4] : List ℚ).map (fun x => 1 / x)) demoMini =
      demoModel.fit (.plain demoData) (some demoParams) demoT [] (some [1, 2, 4]) demoMini :=
  fit_weights_sigma demoModel (.plain demoData) (some demoParams) demoT [] [1, 2, 4]
    demoMini (by decide)

/-- C10: the pandas missing-value predicate and the numpy fallback agree on
every non-null (purely numeric, possibly not-a-number) cell, so a fit over
data free of pandas nulls behaves identically whether or not pandas is
available, under any nan policy. -/
theorem fit_pandas_numpy (m : Model) (data : DataArr) (params? : Option ParameterSet)
    (ivars : List (String × List Cell)) (ovs : List (String × Override))
    (weights? : Option (List ℚ)) (mini : Minimizer)
    (hnum : ∀ c ∈ data.cells, c ≠ Cell.null) :
    (∀ c : Cell, c ≠ Cell.null → pandasIsnull c = numpyIsnan c) ∧
    ({ m with missing := defaultMissing true } : Model).fit data params? ivars ovs
        weights? mini =
      ({ m with missing := defaultMissing false } : Model).fit data params? ivars ovs
        weights? mini := by
  have hpred : ∀ c : Cell, c ≠ Cell.null → pandasIsnull c = numpyIsnan c := by
    intro c hc
    cases c
    · rfl
    · rfl
    · exact absurd rfl hc
  refine ⟨hpred, ?_⟩
  simp only [Model.fit, resolveParams_set_missing, firstMissing_set_missing,
    makeParams_set_missing, nanPolicy_set_missing, eval_set_missing, missing_set_missing]
  cases hfm : firstMissing m (resolveParams m (params?.getD m.makeParams) ovs).1 with
  | some n => simp only [hfm]
  | none =>
    simp only [hfm]
    cases halign : alignStep data ivars weights? with
    | error e => simp only [halign]
    | ok t1 =>
      obtain ⟨d1, iv1, w1⟩ := t1
      simp only [halign]
      have hcells := alignStep_cells data ivars weights? d1 iv1 w1 halign
      have hcong : applyNanPolicy m.nanPolicy (defaultMissing true) d1 iv1 w1 =
          applyNanPolicy m.nanPolicy (defaultMissing false) d1 iv1 w1 := by
        apply applyNanPolicy_congr
        intro c hc
        rcases hcells c hc with hmem | hnan
        · exact hpred c (hnum c hmem)
        · rw [hnan]
          rfl
      rw [hcong]

theorem fit_pandas_numpy_witness :
    (∀ c : Cell, c ≠ Cell.null → pandasIsnull c = numpyIsnan c) ∧
    ({ demoOmitModel with missing := defaultMissing true } : Model).fit
        (.plain demoHoleData) (some demoParams) demoT [] none demoMini =
      ({ demoOmitModel with missing := defaultMissing false } : Model).fit
        (.plain demoHoleData) (some demoParams) demoT [] none demoMini :=
  fit_pandas_numpy demoOmitModel (.plain demoHoleData) (some demoParams) demoT [] none
    demoMini (by decide)

end Lmfit
